import Mathlib

/-!
Verification development for the Schumann Lab v2.6.0 audio engine
(`src/app.js`).  The JavaScript source is shallowly embedded: pure
computations become Lean functions over `ℚ`/`ℤ`/`ℕ`, the stateful
two-tier phase scanner becomes an explicit state machine over a
`ScanState` record, and the audio-graph lifecycle becomes a state
machine over an `AudioNodes` record that tracks created sources,
running sources and pending timers.  Floating point is modelled by
exact rational arithmetic; every numeric literal of the source is
representable exactly in `ℚ`, and the numeric claims under scrutiny
are either exact identities or finite concrete evaluations where the
double rounding error is far below the stated tolerances.
-/

namespace SchumannLab

/-- Clamp `x` into `[lo, hi]`, written in the JS idiom
`Math.max(lo, Math.min(hi, x))`. -/
def clampQ (lo hi x : ℚ) : ℚ := max lo (min hi x)

/-- JS remainder `x % 360` for the nonnegative arguments that occur in
`app.js` (every `% 360` operand in the scanner is first shifted by
`+360` to be nonnegative, where JS remainder agrees with floor mod). -/
def jsMod360 (x : ℚ) : ℚ := x - 360 * (⌊x / 360⌋ : ℤ)

/-- JS `Number.prototype.toFixed(0)` (round half away from zero) for the
nonnegative values the scanner writes into the phase slider. -/
def jsToFixed0 (x : ℚ) : ℚ := ((⌊x + 1/2⌋ : ℤ) : ℚ)

/-! ## Per-band best-phase records (`bestPhaseByBand`, `src/app.js`)

A persisted record is the object `{ phase, count }` stored under the
band key.  `markUpdate` is the update performed by
`handleMarkStrongest` (src/app.js lines 1958-1986): a first mark stores
the marked phase with count 1, later marks fold in by incremental mean.
-/

/-- A persisted per-band record `{ phase, count }`. -/
structure PhaseRecord where
  phase : ℚ
  count : ℕ
  deriving DecidableEq, Repr

/-- The record update performed by one mark at slider value `p`
(`handleMarkStrongest`): an absent record becomes `{phase: p, count: 1}`,
otherwise `count := count + 1` and
`phase := phase + (p - phase) / count` with the new count. -/
def markUpdate (current : Option PhaseRecord) (p : ℚ) : PhaseRecord :=
  match current with
  | none => { phase := p, count := 1 }
  | some r =>
      let count := r.count + 1
      { phase := r.phase + (p - r.phase) / (count : ℚ), count := count }

/-- Folding a whole sequence of marks into a band record, newest last. -/
def markFold (start : Option PhaseRecord) (marks : List ℚ) : Option PhaseRecord :=
  marks.foldl (fun acc m => some (markUpdate acc m)) start

/-! ## Stable sorting (JS `Array.prototype.sort`)

`app.js` sorts scan results and chord loops with two-argument
comparators.  JS sort is stable (ES2019), so it is embedded as a stable
insertion sort: an element is placed before the head of the sorted tail
exactly when the comparator does not require it to come later, which
keeps the original order of comparator-equal elements. -/

/-- Insert `x` into `l`, placing it before the first element `y` with
`le x y = true`.  With `le x y` meaning "comparator x y ≤ 0", this is
the stable placement of JS sort. -/
def insBy {α : Type} (le : α → α → Bool) (x : α) : List α → List α
  | [] => [x]
  | y :: ys => if le x y then x :: y :: ys else y :: insBy le x ys

/-- Stable sort by the boolean relation `le` (earlier elements are
inserted last, so they pass equal elements never). -/
def sortBy {α : Type} (le : α → α → Bool) (l : List α) : List α :=
  l.foldr (insBy le) []

/-! ## Two-tier phase scanner (`src/app.js` lines 2062-2228, 2296-2322)

Global mutable scanner state (`scanning`, `scanTier`, `scanIndex`,
`scanCounts`, `scanPhases`, `scanTimeoutId`, `countdownInterval`, the
persisted `bestPhaseByBand` entry of the active band, and the live
phase slider `phaseRange.value`) is gathered into one record; the
functions below are the direct embeddings of `runScanPhase`,
`startTwoTierScan`, `handleMarkStrongest` and the scan part of
`stopExplore`.  UI-only effects (labels, summaries, button states) are
dropped. -/

/-- Scanner state: the scan globals of `app.js` plus the persisted
record of the active band and the live phase slider. -/
structure ScanState where
  scanning : Bool
  scanTier : ℕ
  scanIndex : ℕ
  scanCounts : List ℕ
  scanPhases : List ℚ
  timerPending : Bool
  countdownActive : Bool
  record : Option PhaseRecord
  phaseValue : ℚ
  deriving DecidableEq, Repr

/-- JS sparse-array write `scanCounts[i] = (scanCounts[i] || 0) + 1`:
missing slots read as 0 and the array is padded when writing past the
end. -/
def bumpCount : List ℕ → ℕ → List ℕ
  | [], 0 => [1]
  | [], n + 1 => 0 :: bumpCount [] n
  | c :: cs, 0 => (c + 1) :: cs
  | _c :: cs, n + 1 => _c :: bumpCount cs n

/-- The comparator `(a, b) => b.count - a.count` of `runScanPhase`,
as the boolean "a need not come after b": true iff `b.count ≤ a.count`. -/
def countLE (a b : ℚ × ℕ) : Bool := b.2 ≤ a.2

/-- The list `scanPhases.map((p, i) => ({phase: p, count: scanCounts[i] || 0}))`. -/
def scanResults (phases : List ℚ) (counts : List ℕ) : List (ℚ × ℕ) :=
  phases.enum.map (fun pr => (pr.2, counts.getD pr.1 0))

/-- The Tier-2 candidate computation of `runScanPhase` (src/app.js lines
2114-2136), exactly as written: sort the `{phase, count}` pairs built
from the CURRENT `scanPhases`/`scanCounts` globals by descending count,
take the top two (defaults 0 and 360 when absent), order them, force a
120 degree separation when equal, and emit 7 evenly spaced points over
`span = (hi - lo + 360) % 360`. -/
def computeTier2Phases (phases : List ℚ) (counts : List ℕ) : List ℚ :=
  let sorted := sortBy countLE (scanResults phases counts)
  let p1 := match sorted.get? 0 with | some r => r.1 | none => 0
  let p2 := match sorted.get? 1 with | some r => r.1 | none => 360
  let lo := if p2 < p1 then p2 else p1
  let hi := if p2 < p1 then p1 else p2
  let hi2 := if lo = hi then jsMod360 (lo + 120) else hi
  let span := jsMod360 (hi2 - lo + 360)
  let step := span / 6
  (List.range 7).map (fun i => jsMod360 (lo + step * (i : ℚ) + 360))

/-- The completion choice of `runScanPhase`: the phase of the first
entry of the count-sorted results, with the JS fallback `scanPhases[0]`. -/
def scanBestPhase (phases : List ℚ) (counts : List ℕ) : ℚ :=
  match (sortBy countLE (scanResults phases counts)).get? 0 with
  | some r => r.1
  | none => phases.getD 0 0

/-- Tier-1 candidate list `[0, 60, 120, 180, 240, 300, 360]`. -/
def tier1Phases : List ℚ := [0, 60, 120, 180, 240, 300, 360]

/-- Embedding of `runScanPhase` (src/app.js lines 2098-2228).  The JS
function calls itself once on the Tier1 to Tier2 transition; the fuel
argument bounds that recursion (depth at most 2 on every reachable
state), and the top-level entry point passes fuel 3. -/
def runScanPhaseFuel : ℕ → ScanState → ScanState
  | 0, s => s
  | fuel + 1, s =>
    if s.scanning = false then s
    else
      let s1 :=
        if s.scanIndex = 0 ∧ s.scanPhases = [] then
          if s.scanTier = 1 then { s with scanPhases := tier1Phases }
          else if s.scanTier = 2 then
            { s with scanPhases := computeTier2Phases s.scanPhases s.scanCounts }
          else s
        else s
      if s1.scanPhases.length ≤ s1.scanIndex then
        if s1.scanTier = 1 then
          runScanPhaseFuel fuel
            { s1 with scanTier := 2, scanIndex := 0, scanCounts := [], scanPhases := [] }
        else
          let best := scanBestPhase s1.scanPhases s1.scanCounts
          { s1 with
            record := some { phase := best,
                             count := match s1.record with | none => 1 | some r => r.count },
            phaseValue := jsToFixed0 best,
            scanning := false, scanTier := 0, scanPhases := [], scanCounts := [],
            scanIndex := 0, countdownActive := false }
      else
        { s1 with phaseValue := jsToFixed0 (s1.scanPhases.getD s1.scanIndex 0),
                  countdownActive := true, timerPending := true }

/-- Embedding of `startTwoTierScan` (src/app.js lines 2055-2096). -/
def startTwoTierScan (s : ScanState) : ScanState :=
  if s.scanning then s
  else
    runScanPhaseFuel 3
      { s with scanning := true, scanTier := 1, scanIndex := 0,
               scanCounts := [], scanPhases := [] }

/-- Embedding of `handleMarkStrongest` (src/app.js lines 1958-1986):
when a scan is running the counter of the current candidate is bumped;
in every case the persisted record of the active band is updated by
incremental mean with the current slider value. -/
def handleMarkStrongest (s : ScanState) : ScanState :=
  let s1 := if s.scanning then { s with scanCounts := bumpCount s.scanCounts s.scanIndex }
            else s
  { s1 with record := some (markUpdate s1.record s1.phaseValue) }

/-- Scan-state part of `stopExplore` (src/app.js lines 2296-2322): when
a guided scan is running, abort it, cancel the pending timer and the
countdown interval, and reset all transient scan state.  The persisted
record is not touched. -/
def stopExploreScan (s : ScanState) : ScanState :=
  if s.scanning then
    { s with scanning := false, timerPending := false, countdownActive := false,
             scanTier := 0, scanPhases := [], scanCounts := [], scanIndex := 0 }
  else s

/-- The externally triggered scanner events: starting a guided scan,
a user mark, the `scanTimeoutId` timeout firing (`scanIndex++` then
`runScanPhase()`), aborting via Stop explore, and a manual move of the
phase slider, which the UI permits only while no scan is running
(`phaseRange.disabled = true` during scans). -/
inductive ScanEvent where
  | start
  | mark
  | advance
  | abort
  | setSlider (v : ℚ)
  deriving DecidableEq, Repr

/-- Apply one scanner event. -/
def applyScanEvent (s : ScanState) : ScanEvent → ScanState
  | .start => startTwoTierScan s
  | .mark => handleMarkStrongest s
  | .advance =>
      if s.timerPending then
        runScanPhaseFuel 3 { s with scanIndex := s.scanIndex + 1, timerPending := false }
      else s
  | .abort => stopExploreScan s
  | .setSlider v => if s.scanning then s else { s with phaseValue := v }

/-- Run a list of events from a state. -/
def runScan (s : ScanState) (es : List ScanEvent) : ScanState :=
  es.foldl applyScanEvent s

/-- Initial scanner state: no scan running, a given persisted record for
the active band, and a given slider position. -/
def initScanState (r : Option PhaseRecord) (v : ℚ) : ScanState :=
  { scanning := false, scanTier := 0, scanIndex := 0, scanCounts := [], scanPhases := [],
    timerPending := false, countdownActive := false, record := r, phaseValue := v }

/-! ## Chord loop scoring and ranking (`scoreChordLoop`, `sortChordLoops`,
`src/app.js` lines 305-359)

JS strings are modelled as `String`/`List Char`; `toLowerCase` as a
character-wise lower-casing, `includes` as substring containment, and
the BPM regex `(^|[^0-9])(\d{2,3})([^0-9]|$)` as an explicit scan. -/

/-- Character-wise `toLowerCase`. -/
def toLowerCL (l : List Char) : List Char := l.map Char.toLower

/-- Whether the first list occurs at the start of the second. -/
def startsWithCL : List Char → List Char → Bool
  | [], _ => true
  | _ :: _, [] => false
  | a :: as, b :: bs => a = b && startsWithCL as bs

/-- JS `hay.includes(needle)`: the needle occurs somewhere in the hay. -/
def hasSubstrCL (needle : List Char) : List Char → Bool
  | [] => startsWithCL needle []
  | c :: rest => startsWithCL needle (c :: rest) || hasSubstrCL needle rest

/-- One catalog entry `{file, name}` from the chord manifest. -/
structure ChordLoop where
  name : String
  file : String
  deriving DecidableEq, Repr

/-- Optional preference document `preferences.json`
(`favoriteKeywords[]`, `meditationKeywords[]`, `avoidKeywords[]`,
`bpmRange: [lo, hi]`). -/
structure ChordPrefs where
  favoriteKeywords : List String
  meditationKeywords : List String
  avoidKeywords : List String
  bpmRange : ℚ × ℚ
  deriving DecidableEq, Repr

/-- The combined lower-cased search text
`` `${loop.name || ''} ${loop.file || ''}`.toLowerCase() ``. -/
def loopText (loop : ChordLoop) : List Char :=
  toLowerCL ((loop.name ++ " " ++ loop.file).toList)

/-- Numeric value of a decimal digit character. -/
def digitVal (c : Char) : ℕ := c.toNat - 48

/-- The regex tail `([^0-9]|$)`: end of input or a non-digit. -/
def bpmBoundary : List Char → Bool
  | [] => true
  | c :: _ => !c.isDigit

/-- Greedy match of `(\d{2,3})([^0-9]|$)` at the start of the list
(three digits are tried first, then the engine backtracks to two),
returning the parsed integer of the digit group. -/
def bpmDigitsAt : List Char → Option ℕ
  | d1 :: d2 :: d3 :: rest =>
      if d1.isDigit && d2.isDigit && d3.isDigit && bpmBoundary rest then
        some (digitVal d1 * 100 + digitVal d2 * 10 + digitVal d3)
      else if d1.isDigit && d2.isDigit && !d3.isDigit then
        some (digitVal d1 * 10 + digitVal d2)
      else none
  | [d1, d2] =>
      if d1.isDigit && d2.isDigit then some (digitVal d1 * 10 + digitVal d2) else none
  | _ => none

/-- Scan the later start positions of the regex: the first group
`[^0-9]` consumes one non-digit character, then the digit group must
match immediately after it. -/
def findBpmAux : List Char → Option ℕ
  | [] => none
  | c :: rest =>
      if !c.isDigit then
        match bpmDigitsAt rest with
        | some n => some n
        | none => findBpmAux rest
      else findBpmAux rest

/-- `text.match(/(^|[^0-9])(\d{2,3})([^0-9]|$)/)` with `parseInt` of the
digit group: the `^` alternative is tried at position 0 first, then the
scan over non-digit boundary characters. -/
def findBpm (text : List Char) : Option ℕ :=
  match bpmDigitsAt text with
  | some n => some n
  | none => findBpmAux text

/-- Default tempo range `[110, 140]`. -/
def baseBpmRange : ℚ × ℚ := (110, 140)

/-- Tempo range from the preference document, defaulting to `[110, 140]`. -/
def bpmRangeOf : Option ChordPrefs → ℚ × ℚ
  | none => baseBpmRange
  | some p => p.bpmRange

/-- Favorite keywords, defaulting to none. -/
def favoritesOf : Option ChordPrefs → List String
  | none => []
  | some p => p.favoriteKeywords

/-- Meditation keywords, defaulting to none. -/
def meditationOf : Option ChordPrefs → List String
  | none => []
  | some p => p.meditationKeywords

/-- Avoid keywords, defaulting to none. -/
def avoidOf : Option ChordPrefs → List String
  | none => []
  | some p => p.avoidKeywords

/-- The fixed base positive keyword list of `scoreChordLoop`. -/
def basePosKeywords : List String :=
  ["minor", "min", "m_", "sus", "maj7", "add9", "pad", "drone", "soft", "warm"]

/-- The fixed base negative keyword list of `scoreChordLoop`. -/
def baseNegKeywords : List String := ["drum", "perc", "stacc", "pluck", "arp", "lead"]

/-- Number of keywords of a fixed (already lower-case) list contained in
the text. -/
def matchCount (text : List Char) (ks : List String) : ℕ :=
  (ks.filter (fun k => hasSubstrCL k.toList text)).length

/-- Number of user keywords contained in the text: falsy (empty)
keywords are skipped and the keyword is lower-cased first, as in
`if (k && text.includes(String(k).toLowerCase()))`. -/
def userMatchCount (text : List Char) (ks : List String) : ℕ :=
  (ks.filter (fun k => !(k == "") && hasSubstrCL (toLowerCL k.toList) text)).length

/-- Tempo contribution: `+12` inside the preferred range, `−8` above 155. -/
def bpmScorePart (prefs : Option ChordPrefs) (loop : ChordLoop) : ℤ :=
  match findBpm (loopText loop) with
  | none => 0
  | some b =>
      let range := bpmRangeOf prefs
      (if range.1 ≤ (b : ℚ) ∧ (b : ℚ) ≤ range.2 then 12 else 0) +
        (if 155 < b then -8 else 0)

/-- Base positive keywords: `+6` per match. -/
def basePosScorePart (loop : ChordLoop) : ℤ :=
  6 * (matchCount (loopText loop) basePosKeywords : ℤ)

/-- Base negative keywords: `−8` per match. -/
def baseNegScorePart (loop : ChordLoop) : ℤ :=
  -8 * (matchCount (loopText loop) baseNegKeywords : ℤ)

/-- Favorite keywords: `+45` per match. -/
def favScorePart (prefs : Option ChordPrefs) (loop : ChordLoop) : ℤ :=
  45 * (userMatchCount (loopText loop) (favoritesOf prefs) : ℤ)

/-- Meditation keywords: `+14` per match. -/
def medScorePart (prefs : Option ChordPrefs) (loop : ChordLoop) : ℤ :=
  14 * (userMatchCount (loopText loop) (meditationOf prefs) : ℤ)

/-- Avoid keywords: `−18` per match. -/
def avoidScorePart (prefs : Option ChordPrefs) (loop : ChordLoop) : ℤ :=
  -18 * (userMatchCount (loopText loop) (avoidOf prefs) : ℤ)

/-- Embedding of `scoreChordLoop` (src/app.js lines 305-350): the sum of
the contributions accumulated by the JS function. -/
def scoreChordLoop (prefs : Option ChordPrefs) (loop : ChordLoop) : ℤ :=
  bpmScorePart prefs loop + basePosScorePart loop + baseNegScorePart loop +
    favScorePart prefs loop + medScorePart prefs loop + avoidScorePart prefs loop

/-- Lexicographic order on character lists (true when the first is not
later than the second). -/
def lexLe : List Char → List Char → Bool
  | [], _ => true
  | _ :: _, [] => false
  | a :: as, b :: bs => if a = b then lexLe as bs else decide (a < b)

/-- The display name used by the sort tiebreak:
`String(a.loop.name || a.loop.file)`. -/
def loopSortName (loop : ChordLoop) : String :=
  if loop.name = "" then loop.file else loop.name

/-- The tiebreak `localeCompare(...) <= 0`, modelled as case-insensitive
lexicographic comparison of the display names. -/
def nameLe (a b : ChordLoop) : Bool :=
  lexLe (toLowerCL (loopSortName a).toList) (toLowerCL (loopSortName b).toList)

/-- The comparator of `sortChordLoops` as the stable-placement relation
"comparator a b ≤ 0": strictly greater score first, score ties broken by
name. -/
def loopCmpLE (a b : ChordLoop × ℤ) : Bool :=
  if a.2 = b.2 then nameLe a.1 b.1 else decide (b.2 < a.2)

/-- Embedding of `sortChordLoops` (src/app.js lines 352-359): attach
scores and stably sort descending by score with the name tiebreak. -/
def sortChordLoops (prefs : Option ChordPrefs) (loops : List ChordLoop) :
    List (ChordLoop × ℤ) :=
  sortBy loopCmpLE (loops.map (fun l => (l, scoreChordLoop prefs l)))

/-! ## Mode synthesis (`startGraph`, `createBandSplitEchoCluster`) -/

/-- The four stimulation modes of `app.js` (`stimulationMode`). -/
inductive StimMode where
  | am
  | binaural
  | spatial
  | ambient
  deriving DecidableEq, Repr

/-- The fixed linear band-to-carrier mapping `200 + freqHz * 3`
(src/app.js lines 1178-1180). -/
def mapBandToAudible (freqHz : ℚ) : ℚ := 200 + freqHz * 3

/-- The session-randomized split fraction of `createBandSplitEchoCluster`
with the default options `splitMin = 0.35`, `splitMax = 0.65`; `rand`
stands for the `Math.random()` draw in `[0, 1]`. -/
def echoSplitFrac (rand : ℚ) : ℚ := 35/100 + rand * (65/100 - 35/100)

/-- `leftDiff = freqHz * randFrac` of `createBandSplitEchoCluster`. -/
def echoLeftDiff (freqHz randFrac : ℚ) : ℚ := freqHz * randFrac

/-- `rightDiff = freqHz * (1 - randFrac)` of `createBandSplitEchoCluster`. -/
def echoRightDiff (freqHz randFrac : ℚ) : ℚ := freqHz * (1 - randFrac)

/-- Left echo oscillator frequency `audibleHz + leftDiff`. -/
def echoLeftFreq (audibleHz freqHz randFrac : ℚ) : ℚ :=
  audibleHz + echoLeftDiff freqHz randFrac

/-- Right echo oscillator frequency `audibleHz - rightDiff`. -/
def echoRightFreq (audibleHz freqHz randFrac : ℚ) : ℚ :=
  audibleHz - echoRightDiff freqHz randFrac

/-- The pairs `(leftDiff, rightDiff)` of detune offsets created by one
`startGraph` build in a given stimulation mode: only the Spatial Echo
branch invokes `createBandSplitEchoCluster`; the Ambient Echo branch of
`startGraph` sets the carrier gain to zero and later adds undetuned
ambience delay taps, and the AM and Binaural branches create no echo
pair. -/
def modeDetunePairs (mode : StimMode) (freqHz rand : ℚ) : List (ℚ × ℚ) :=
  match mode with
  | .spatial =>
      [(echoLeftDiff freqHz (echoSplitFrac rand), echoRightDiff freqHz (echoSplitFrac rand))]
  | _ => []

/-- Binaural left oscillator frequency `audibleHz + freqHz / 2`
(src/app.js lines 1630-1654, `halfDiff = freqHz / 2`). -/
def binauralLeftFreq (freqHz : ℚ) : ℚ := mapBandToAudible freqHz + freqHz / 2

/-- Binaural right oscillator frequency `audibleHz - freqHz / 2`. -/
def binauralRightFreq (freqHz : ℚ) : ℚ := mapBandToAudible freqHz - freqHz / 2

/-- In the Binaural branch the carrier path is silenced:
`baseGain.gain.value = 0`. -/
def binauralCarrierGain : ℚ := 0

/-- The binaural pan values `(leftPan.pan.value, rightPan.pan.value) = (-1, 1)`. -/
def binauralPans : ℚ × ℚ := (-1, 1)

/-! ## Reverb wet-gain compensation (`getAudioBufferRms`,
`getCompensatedIrWetGain`, src/app.js lines 424-450) -/

/-- Sum of squared samples of one channel. -/
def sumSquares (channel : List ℚ) : ℚ := (channel.map (fun v => v * v)).sum

/-- Mean of the squared samples over all channels and samples of a
decoded buffer, 0 when there are no samples.  `getAudioBufferRms`
returns `Math.sqrt` of this value; the square root is kept implicit and
characterized by `0 ≤ r` and `r * r = meanSquare`, since `ℚ` has no
square root. -/
def getAudioBufferMeanSquare (buffer : List (List ℚ)) : ℚ :=
  let s := (buffer.map sumSquares).sum
  let count := (buffer.map List.length).sum
  if count = 0 then 0 else s / (count : ℚ)

/-- Embedding of `getCompensatedIrWetGain` with the rms value of the
buffer as argument (the JS function computes it by `getAudioBufferRms`):
base wet 0.42 for the name `temple`, 0.58 otherwise; non-positive rms
skips compensation (the `Number.isFinite` guard cannot fire over `ℚ`);
otherwise `clamp(0.05, 1.5)` of `0.12 / rms` scales the base, clamped
into `[0.03, 0.95]`. -/
def getCompensatedIrWetGain (name : String) (rms : ℚ) : ℚ :=
  let baseWet : ℚ := if name = "temple" then 42/100 else 58/100
  if rms ≤ 0 then baseWet
  else
    let comp := max (5/100) (min (3/2 : ℚ) (12/100 / rms))
    max (3/100) (min (95/100 : ℚ) (baseWet * comp))

/-- The two reverb spaces of the specification. -/
inductive ReverbSpace where
  | forest
  | temple
  deriving DecidableEq, Repr

/-- The asset name of a reverb space as used by `startGraph`
(`selectedIR` is the lowercase option value). -/
def reverbSpaceName : ReverbSpace → String
  | .forest => "forest"
  | .temple => "temple"

/-- Spec-side base wet levels: `baseWet(Temple) = 0.42`,
`baseWet(Forest) = 0.58`. -/
def baseWetSpec : ReverbSpace → ℚ
  | .temple => 42/100
  | .forest => 58/100

/-- Spec-side wet-gain formula, written from the words of the claim:
`clamp(baseWet(space) * clamp(0.12/rms, 0.05, 1.5), 0.03, 0.95)`, with
compensation skipped when the rms is zero. -/
def wetGainSpec (space : ReverbSpace) (rms : ℚ) : ℚ :=
  if rms = 0 then baseWetSpec space
  else clampQ (3/100) (95/100) (baseWetSpec space * clampQ (5/100) (3/2) (12/100 / rms))

/-! ## Audio graph lifecycle (`startGraph` / `stopCurrentAudio`,
src/app.js lines 1400-1862)

Sources and timers are what teardown is about, so the model tracks
them: every node with a start/stop lifecycle (oscillators, buffer
sources, media elements) gets an id, the `running` ledger holds the ids
of sources started and not yet stopped, and the named JS variables hold
optional ids.  Pure routing nodes (gains, filters, panners, convolver)
have no start/stop lifecycle and are omitted; `motionGainNode` is kept
because `stopCurrentAudio` names it explicitly. -/

/-- Build configuration: stimulation mode and which optional asset paths
succeed (decoded sample buffer, streaming element fallback), whether the
triad chord progression is active, and whether the synthesized
birds/waves patterns run (they run only when no sample or stream is
attached for that channel). -/
structure GraphCfg where
  mode : StimMode
  birdsSampleLoaded : Bool
  birdsStreamOk : Bool
  wavesSampleLoaded : Bool
  wavesStreamOk : Bool
  chordOn : Bool
  birdsPatternOn : Bool
  wavesPatternOn : Bool
  deriving DecidableEq, Repr

/-- The audio-graph globals of `app.js` that carry sources and timers. -/
structure AudioNodes where
  baseOsc : Option ℕ
  oceanSource : Option ℕ
  rainSource : Option ℕ
  wavesSource : Option ℕ
  birdsSource : Option ℕ
  birdsStreamEl : Option ℕ
  wavesStreamEl : Option ℕ
  chordBufferSource : Option ℕ
  motionLfo : Option ℕ
  motionGainNode : Option ℕ
  extraNodes : List ℕ
  motionPanners : List ℕ
  chordOscs : List ℕ
  birdsPatternTimer : Bool
  wavesPatternTimer : Bool
  chordTimer : Bool
  scopeAnimId : Bool
  running : List ℕ
  nextId : ℕ
  deriving DecidableEq, Repr

/-- `safeStop(node)`: stopping a node removes it from the running
ledger; a null handle is a no-op (the JS try/catch swallows every
failure, so stop on an already stopped or non-source node never
errors). -/
def stopNode (running : List ℕ) : Option ℕ → List ℕ
  | none => running
  | some i => running.erase i

/-- Embedding of `stopCurrentAudio` (src/app.js lines 1400-1458): stop
`baseOsc`, the ocean/rain/waves sources, every node in `extraNodes`, the
motion LFO and gain, the chord oscillators and any chord loop buffer
(via `stopChordProgression`), clear the pattern timers and the scope
animation, and null the corresponding variables.  `birdsSource`,
`birdsStreamEl` and `wavesStreamEl` are not stopped, paused or cleared
anywhere in the function, exactly as in the source. -/
def stopCurrentAudio (s : AudioNodes) : AudioNodes :=
  let r0 := stopNode s.running s.baseOsc
  let r1 := stopNode r0 s.oceanSource
  let r2 := stopNode r1 s.rainSource
  let r3 := stopNode r2 s.wavesSource
  let r4 := s.extraNodes.foldl List.erase r3
  let r5 := stopNode r4 s.motionLfo
  let r6 := stopNode r5 s.motionGainNode
  let r7 := s.chordOscs.foldl List.erase r6
  let r8 := stopNode r7 s.chordBufferSource
  { s with running := r8,
           baseOsc := none, oceanSource := none, rainSource := none, wavesSource := none,
           chordBufferSource := none, motionLfo := none, motionGainNode := none,
           extraNodes := [], motionPanners := [], chordOscs := [],
           birdsPatternTimer := false, wavesPatternTimer := false, chordTimer := false,
           scopeAnimId := false }

/-- Embedding of `startGraph` (src/app.js lines 1524-1862): tear down
the previous graph, then create and start the motion LFO, the carrier,
the mode-specific extra sources, the ocean and rain sources, the
waves/birds source or streaming element according to which asset paths
succeed, and the chord oscillators.  Ids are allocated from `nextId`;
the freshly started sources are appended to the running ledger. -/
def startGraph (cfg : GraphCfg) (s0 : AudioNodes) : AudioNodes :=
  let s := stopCurrentAudio s0
  let b := s.nextId
  let modeExtra : List ℕ :=
    match cfg.mode with
    | .ambient => []
    | _ => [b + 2, b + 3]
  let wavesSrc : Option ℕ :=
    if cfg.wavesSampleLoaded || !cfg.wavesStreamOk then some (b + 6) else none
  let wavesStream : Option ℕ :=
    if !cfg.wavesSampleLoaded && cfg.wavesStreamOk then some (b + 6) else none
  let birdsSrc : Option ℕ := if cfg.birdsSampleLoaded then some (b + 7) else none
  let birdsStream : Option ℕ :=
    if !cfg.birdsSampleLoaded && cfg.birdsStreamOk then some (b + 7) else none
  let chordOscIds : List ℕ := if cfg.chordOn then [b + 8, b + 9, b + 10] else []
  { baseOsc := some (b + 1),
    oceanSource := some (b + 4),
    rainSource := some (b + 5),
    wavesSource := wavesSrc,
    birdsSource := match birdsSrc with | some i => some i | none => s.birdsSource,
    birdsStreamEl := match birdsStream with | some i => some i | none => s.birdsStreamEl,
    wavesStreamEl := match wavesStream with | some i => some i | none => s.wavesStreamEl,
    chordBufferSource := none,
    motionLfo := some b,
    motionGainNode := some (b + 11),
    extraNodes := modeExtra ++ [b, b + 11],
    motionPanners := [],
    chordOscs := chordOscIds,
    birdsPatternTimer := cfg.birdsPatternOn && !cfg.birdsSampleLoaded && !cfg.birdsStreamOk,
    wavesPatternTimer := cfg.wavesPatternOn && !cfg.wavesSampleLoaded && !cfg.wavesStreamOk,
    chordTimer := cfg.chordOn,
    scopeAnimId := true,
    running := s.running ++ [b, b + 1] ++ modeExtra ++ [b + 4, b + 5] ++
      (match wavesSrc with | some i => [i] | none => []) ++
      (match wavesStream with | some i => [i] | none => []) ++
      (match birdsSrc with | some i => [i] | none => []) ++
      (match birdsStream with | some i => [i] | none => []) ++ chordOscIds,
    nextId := b + 12 }

/-- The empty audio state before any build. -/
def emptyAudio : AudioNodes :=
  { baseOsc := none, oceanSource := none, rainSource := none, wavesSource := none,
    birdsSource := none, birdsStreamEl := none, wavesStreamEl := none,
    chordBufferSource := none, motionLfo := none, motionGainNode := none,
    extraNodes := [], motionPanners := [], chordOscs := [],
    birdsPatternTimer := false, wavesPatternTimer := false, chordTimer := false,
    scopeAnimId := false, running := [], nextId := 0 }

/-- Range predicate for a stored per-band record: phase within
`[0, 360]` and a nonnegative mark count. -/
def recordInRange : Option PhaseRecord → Prop
  | none => True
  | some r => 0 ≤ r.phase ∧ r.phase ≤ 360 ∧ 0 ≤ r.count

/-- Scanner-state invariant: the stored record, the live slider and all
pending scan candidates lie within `[0, 360]` degrees. -/
def ScanInv (s : ScanState) : Prop :=
  recordInRange s.record ∧ 0 ≤ s.phaseValue ∧ s.phaseValue ≤ 360 ∧
    ∀ p ∈ s.scanPhases, 0 ≤ p ∧ p ≤ 360

/-- Modelled from the spec: the phase slider element lives in
`index.html`, which is not among the files under `src/`; the
specification describes the live phase parameter as a degree control
and the scanner writes only values in `[0, 360]` into it, so a manual
slider event carries a value in `[0, 360]`. -/
def eventSliderOk : ScanEvent → Prop
  | .setSlider v => 0 ≤ v ∧ v ≤ 360
  | _ => True

/-- A concrete scanner state at the end of Tier 2 (all seven candidates
presented, one mark on candidate 3, a pre-existing record with one
mark), used to instantiate the completion theorem. -/
def c1ScanState : ScanState :=
  { scanning := true, scanTier := 2, scanIndex := 7, scanCounts := [0, 0, 0, 1],
    scanPhases := [0, 0, 0, 0, 0, 0, 0], timerPending := false, countdownActive := true,
    record := some { phase := 50, count := 1 }, phaseValue := 0 }

/-- A concrete scanner state with a running scan, used to instantiate
the abort theorem. -/
def c2ScanState : ScanState :=
  { scanning := true, scanTier := 2, scanIndex := 3, scanCounts := [0, 0, 0, 1],
    scanPhases := [0, 0, 0, 0, 0, 0, 0], timerPending := true, countdownActive := true,
    record := some { phase := 25, count := 2 }, phaseValue := 0 }

/-- A build configuration in which the birds sample buffer is decoded,
so `startGraph` creates and starts a looping `birdsSource`. -/
def c4CfgSample : GraphCfg :=
  { mode := .am, birdsSampleLoaded := true, birdsStreamOk := false,
    wavesSampleLoaded := true, wavesStreamOk := false, chordOn := false,
    birdsPatternOn := false, wavesPatternOn := false }

/-- A build configuration in which birds and waves fall back to
streaming media elements. -/
def c4CfgStream : GraphCfg :=
  { mode := .am, birdsSampleLoaded := false, birdsStreamOk := true,
    wavesSampleLoaded := false, wavesStreamOk := true, chordOn := false,
    birdsPatternOn := false, wavesPatternOn := false }

/-- A concrete preference document with favorite keyword `ocean` and
meditation keyword `zen`. -/
def c10Prefs : Option ChordPrefs :=
  some { favoriteKeywords := ["ocean"], meditationKeywords := ["zen"],
         avoidKeywords := [], bpmRange := (110, 140) }

/-- A catalog entry matching only the favorite keyword. -/
def c10LoopA : ChordLoop := { name := "ocean calm", file := "" }

/-- A catalog entry matching only the meditation keyword. -/
def c10LoopB : ChordLoop := { name := "zen calm", file := "" }

/-! ## Shared lemmas -/

/-- Membership is preserved by stable insertion. -/
theorem mem_insBy {α : Type} (le : α → α → Bool) (x a : α) :
    ∀ l : List α, a ∈ insBy le x l ↔ a = x ∨ a ∈ l := by
  intro l
  induction l with
  | nil => simp [insBy]
  | cons y ys ih =>
      by_cases h : le x y = true
      · simp [insBy, h]
      · simp only [insBy, h, Bool.false_eq_true, if_false, List.mem_cons, ih]
        tauto

/-- Unfolding the stable sort one element. -/
theorem sortBy_cons {α : Type} (le : α → α → Bool) (x : α) (l : List α) :
    sortBy le (x :: l) = insBy le x (sortBy le l) := rfl

/-- The stable sort preserves membership. -/
theorem mem_sortBy {α : Type} (le : α → α → Bool) (a : α) :
    ∀ l : List α, a ∈ sortBy le l ↔ a ∈ l := by
  intro l
  induction l with
  | nil => simp [sortBy]
  | cons y ys ih => simp [sortBy_cons, mem_insBy, ih]

/-- Insertion preserves pairwise ordering for a relation compatible with
the boolean comparator. -/
theorem pairwise_insBy {α : Type} {le : α → α → Bool} {R : α → α → Prop}
    (hT : ∀ a b, le a b = true → R a b) (hF : ∀ a b, le a b = false → R b a)
    (htr : ∀ a b c, R a b → R b c → R a c) (x : α) :
    ∀ l : List α, l.Pairwise R → (insBy le x l).Pairwise R := by
  intro l
  induction l with
  | nil => intro _; simp [insBy]
  | cons y ys ih =>
      intro hp
      rcases List.pairwise_cons.mp hp with ⟨hy, hys⟩
      by_cases h : le x y = true
      · simp only [insBy, h, if_true]
        refine List.pairwise_cons.mpr ⟨?_, hp⟩
        intro z hz
        rcases List.mem_cons.mp hz with rfl | hz
        · exact hT _ _ h
        · exact htr _ _ _ (hT _ _ h) (hy _ hz)
      · simp only [insBy, h, Bool.false_eq_true, if_false]
        refine List.pairwise_cons.mpr ⟨?_, ih hys⟩
        intro z hz
        rcases (mem_insBy le x z ys).mp hz with rfl | hz
        · exact hF _ _ (Bool.eq_false_iff.mpr h)
        · exact hy _ hz

/-- The stable sort is pairwise ordered for a relation compatible with
the boolean comparator. -/
theorem pairwise_sortBy {α : Type} {le : α → α → Bool} {R : α → α → Prop}
    (hT : ∀ a b, le a b = true → R a b) (hF : ∀ a b, le a b = false → R b a)
    (htr : ∀ a b c, R a b → R b c → R a c) :
    ∀ l : List α, (sortBy le l).Pairwise R := by
  intro l
  induction l with
  | nil => simp [sortBy]
  | cons y ys ih => exact sortBy_cons le y ys ▸ pairwise_insBy hT hF htr y _ ih

/-- The Tier-2 candidate computation on an empty phase list (the only
way `runScanPhase` ever invokes it, since the Tier1 to Tier2 transition
clears `scanPhases` and `scanCounts` before the recursive call) yields
seven zero candidates for every count list. -/
theorem computeTier2Phases_nil (counts : List ℕ) :
    computeTier2Phases [] counts = List.replicate 7 0 := by
  norm_num [computeTier2Phases, scanResults, sortBy, jsMod360, List.replicate]

/-- Rounding by `toFixed(0)` keeps values inside `[0, 360]`. -/
theorem jsToFixed0_range {x : ℚ} (h0 : 0 ≤ x) (h1 : x ≤ 360) :
    0 ≤ jsToFixed0 x ∧ jsToFixed0 x ≤ 360 := by
  have hfl : ((⌊x + 1/2⌋ : ℤ) : ℚ) ≤ x + 1/2 := Int.floor_le _
  have hlow : (0 : ℤ) ≤ ⌊x + 1/2⌋ := Int.le_floor.mpr (by push_cast; linarith)
  have hlt : (⌊x + 1/2⌋ : ℤ) < 361 := by
    have : ((⌊x + 1/2⌋ : ℤ) : ℚ) < 361 := lt_of_le_of_lt hfl (by linarith)
    exact_mod_cast this
  constructor
  · unfold jsToFixed0; exact_mod_cast hlow
  · unfold jsToFixed0
    have : (⌊x + 1/2⌋ : ℤ) ≤ 360 := by omega
    exact_mod_cast this

/-- One mark keeps the stored phase inside `[0, 360]`: the incremental
mean of values in the range stays in the range. -/
theorem markUpdate_inRange (rec : Option PhaseRecord) (p : ℚ)
    (hrec : recordInRange rec) (h0 : 0 ≤ p) (h1 : p ≤ 360) :
    recordInRange (some (markUpdate rec p)) := by
  cases rec with
  | none => exact ⟨h0, h1, Nat.zero_le _⟩
  | some r =>
      obtain ⟨hr0, hr1, -⟩ := hrec
      have hn : (0 : ℚ) ≤ (r.count : ℚ) := by positivity
      have hd : (0 : ℚ) < (r.count : ℚ) + 1 := by linarith
      have hcast : (((r.count + 1 : ℕ)) : ℚ) = (r.count : ℚ) + 1 := by push_cast; ring
      have hval : (markUpdate (some r) p).phase =
          (r.phase * (r.count : ℚ) + p) / ((r.count : ℚ) + 1) := by
        simp only [markUpdate, hcast]
        field_simp
        ring
      refine ⟨?_, ?_, Nat.zero_le _⟩
      · rw [hval]
        exact div_nonneg (by nlinarith) (le_of_lt hd)
      · rw [hval]
        rw [div_le_iff₀ hd]
        nlinarith

/-- The first components of the scan results are exactly the scanned
phases. -/
theorem scanResults_map_fst (phases : List ℚ) (counts : List ℕ) :
    (scanResults phases counts).map Prod.fst = phases := by
  unfold scanResults
  rw [List.map_map]
  have hcomp : (Prod.fst ∘ fun pr : ℕ × ℚ => (pr.2, counts.getD pr.1 0)) = Prod.snd := by
    funext pr; rfl
  rw [hcomp, List.enum_map_snd]

/-- On an empty candidate list the completion choice falls back to the
default 0. -/
theorem scanBestPhase_nil (counts : List ℕ) : scanBestPhase [] counts = 0 := by
  norm_num [scanBestPhase, scanResults, sortBy]

/-- On a nonempty candidate list the completion choice is one of the
candidates. -/
theorem scanBestPhase_mem (phases : List ℚ) (counts : List ℕ) (h : phases ≠ []) :
    scanBestPhase phases counts ∈ phases := by
  unfold scanBestPhase
  cases hs : (sortBy countLE (scanResults phases counts)).get? 0 with
  | none =>
      exfalso
      have hlen : (sortBy countLE (scanResults phases counts)).length ≤ 0 :=
        List.get?_eq_none.mp hs
      have hnil : sortBy countLE (scanResults phases counts) = [] :=
        List.eq_nil_of_length_eq_zero (Nat.le_zero.mp hlen)
      have hres : scanResults phases counts = [] := by
        by_contra hne
        rcases List.exists_mem_of_ne_nil _ hne with ⟨x, hx⟩
        have : x ∈ sortBy countLE (scanResults phases counts) :=
          (mem_sortBy _ _ _).mpr hx
        simp [hnil] at this
      have hm := scanResults_map_fst phases counts
      rw [hres] at hm
      exact h (by simpa using hm.symm)
  | some r =>
      have hmem : r ∈ sortBy countLE (scanResults phases counts) := List.get?_mem hs
      have hmem2 : r ∈ scanResults phases counts := (mem_sortBy _ _ _).mp hmem
      have : r.1 ∈ (scanResults phases counts).map Prod.fst :=
        List.mem_map_of_mem Prod.fst hmem2
      rwa [scanResults_map_fst] at this

/-- The Tier-1 candidates all lie in `[0, 360]`. -/
theorem tier1Phases_range : ∀ p ∈ tier1Phases, 0 ≤ p ∧ p ≤ 360 := by
  intro p hp
  simp only [tier1Phases, List.mem_cons, List.not_mem_nil, or_false] at hp
  rcases hp with rfl | rfl | rfl | rfl | rfl | rfl | rfl <;> norm_num

/-- Reading a candidate list within range (with the JS default 0 past
the end) yields a value within range. -/
theorem getD_range (l : List ℚ) (h : ∀ p ∈ l, 0 ≤ p ∧ p ≤ 360) (i : ℕ) :
    0 ≤ l.getD i 0 ∧ l.getD i 0 ≤ 360 := by
  by_cases hlt : i < l.length
  · rw [List.getD_eq_getElem l 0 hlt]
    exact h _ (List.getElem_mem hlt)
  · rw [List.getD_eq_default l 0 (Nat.le_of_not_lt hlt)]
    norm_num

/-- Seven zero candidates lie in `[0, 360]`. -/
theorem replicate0_range : ∀ p ∈ List.replicate 7 (0 : ℚ), 0 ≤ p ∧ p ≤ 360 := by
  intro p hp
  rw [List.eq_of_mem_replicate hp]
  norm_num

/-- `runScanPhase` preserves the range invariant. -/
theorem runScanPhaseFuel_inv : ∀ (fuel : ℕ) (s : ScanState),
    ScanInv s → ScanInv (runScanPhaseFuel fuel s) := by
  intro fuel
  induction fuel with
  | zero => intro s h; exact h
  | succ n ih =>
      intro s h
      obtain ⟨hrec, hpv0, hpv1, hph⟩ := h
      by_cases hsc : s.scanning = false
      · simp only [runScanPhaseFuel, hsc, if_true]
        exact ⟨hrec, hpv0, hpv1, hph⟩
      · by_cases hrc : s.scanIndex = 0 ∧ s.scanPhases = []
        · obtain ⟨hidx0, hpnil⟩ := hrc
          by_cases ht1 : s.scanTier = 1
          · have hres : runScanPhaseFuel (n + 1) s =
                { s with scanPhases := tier1Phases,
                         phaseValue := jsToFixed0 (tier1Phases.getD s.scanIndex 0),
                         countdownActive := true, timerPending := true } := by
              simp [runScanPhaseFuel, hsc, hidx0, hpnil, ht1, tier1Phases]
            rw [hres]
            have hget := getD_range tier1Phases tier1Phases_range s.scanIndex
            exact ⟨hrec, (jsToFixed0_range hget.1 hget.2).1,
              (jsToFixed0_range hget.1 hget.2).2, tier1Phases_range⟩
          · by_cases ht2 : s.scanTier = 2
            · have hres : runScanPhaseFuel (n + 1) s =
                  { s with scanPhases := List.replicate 7 0,
                           phaseValue :=
                             jsToFixed0 ((List.replicate 7 (0 : ℚ)).getD s.scanIndex 0),
                           countdownActive := true, timerPending := true } := by
                simp [runScanPhaseFuel, hsc, hidx0, hpnil, ht1, ht2,
                  computeTier2Phases_nil, List.replicate]
              rw [hres]
              have hget := getD_range (List.replicate 7 0) replicate0_range s.scanIndex
              exact ⟨hrec, (jsToFixed0_range hget.1 hget.2).1,
                (jsToFixed0_range hget.1 hget.2).2, replicate0_range⟩
            · -- a scanning state whose tier is neither 1 nor 2 with an empty
              -- candidate list: the completion arm runs on the empty list
              have hres : runScanPhaseFuel (n + 1) s =
                  { s with
                    record := some { phase := scanBestPhase s.scanPhases s.scanCounts,
                                     count := match s.record with
                                              | none => 1 | some r => r.count },
                    phaseValue := jsToFixed0 (scanBestPhase s.scanPhases s.scanCounts),
                    scanning := false, scanTier := 0, scanPhases := [], scanCounts := [],
                    scanIndex := 0, countdownActive := false } := by
                simp [runScanPhaseFuel, hsc, hidx0, hpnil, ht1, ht2]
              rw [hres]
              have hb : scanBestPhase s.scanPhases s.scanCounts = 0 := by
                rw [hpnil]; exact scanBestPhase_nil _
              rw [hb]
              exact ⟨⟨by norm_num, by norm_num, Nat.zero_le _⟩,
                (jsToFixed0_range (by norm_num) (by norm_num)).1,
                (jsToFixed0_range (by norm_num) (by norm_num)).2,
                fun p hp => nomatch hp⟩
        · by_cases hlen : s.scanPhases.length ≤ s.scanIndex
          · by_cases ht1 : s.scanTier = 1
            · have hres : runScanPhaseFuel (n + 1) s =
                  runScanPhaseFuel n
                    { s with scanTier := 2, scanIndex := 0,
                             scanCounts := [], scanPhases := [] } := by
                simp [runScanPhaseFuel, hsc, hrc, hlen, ht1]
              rw [hres]
              exact ih _ ⟨hrec, hpv0, hpv1, fun p hp => nomatch hp⟩
            · have hres : runScanPhaseFuel (n + 1) s =
                  { s with
                    record := some { phase := scanBestPhase s.scanPhases s.scanCounts,
                                     count := match s.record with
                                              | none => 1 | some r => r.count },
                    phaseValue := jsToFixed0 (scanBestPhase s.scanPhases s.scanCounts),
                    scanning := false, scanTier := 0, scanPhases := [], scanCounts := [],
                    scanIndex := 0, countdownActive := false } := by
                simp [runScanPhaseFuel, hsc, hrc, hlen, ht1]
              rw [hres]
              by_cases hpe : s.scanPhases = []
              · have hb : scanBestPhase s.scanPhases s.scanCounts = 0 := by
                  rw [hpe]; exact scanBestPhase_nil _
                rw [hb]
                exact ⟨⟨by norm_num, by norm_num, Nat.zero_le _⟩,
                  (jsToFixed0_range (by norm_num) (by norm_num)).1,
                  (jsToFixed0_range (by norm_num) (by norm_num)).2,
                  fun p hp => nomatch hp⟩
              · have hbm := hph _ (scanBestPhase_mem s.scanPhases s.scanCounts hpe)
                exact ⟨⟨hbm.1, hbm.2, Nat.zero_le _⟩,
                  (jsToFixed0_range hbm.1 hbm.2).1, (jsToFixed0_range hbm.1 hbm.2).2,
                  fun p hp => nomatch hp⟩
          · have hres : runScanPhaseFuel (n + 1) s =
                { s with phaseValue := jsToFixed0 (s.scanPhases.getD s.scanIndex 0),
                         countdownActive := true, timerPending := true } := by
              simp [runScanPhaseFuel, hsc, hrc, hlen]
            rw [hres]
            have hget := getD_range s.scanPhases hph s.scanIndex
            exact ⟨hrec, (jsToFixed0_range hget.1 hget.2).1,
              (jsToFixed0_range hget.1 hget.2).2, hph⟩

/-- Every scanner event preserves the range invariant (manual slider
moves carry values in `[0, 360]`). -/
theorem applyScanEvent_inv (s : ScanState) (e : ScanEvent)
    (h : ScanInv s) (he : eventSliderOk e) : ScanInv (applyScanEvent s e) := by
  obtain ⟨hrec, hpv0, hpv1, hph⟩ := h
  cases e with
  | start =>
      simp only [applyScanEvent, startTwoTierScan]
      by_cases hsc : s.scanning = true
      · simp only [hsc, if_true]
        exact ⟨hrec, hpv0, hpv1, hph⟩
      · rw [if_neg hsc]
        exact runScanPhaseFuel_inv 3
          { s with scanning := true, scanTier := 1, scanIndex := 0,
                   scanCounts := [], scanPhases := [] }
          ⟨hrec, hpv0, hpv1, fun p hp => nomatch hp⟩
  | mark =>
      simp only [applyScanEvent, handleMarkStrongest]
      by_cases hsc : s.scanning = true
      · simp only [hsc, if_true]
        exact ⟨markUpdate_inRange s.record s.phaseValue hrec hpv0 hpv1, hpv0, hpv1, hph⟩
      · simp only [hsc, if_false]
        exact ⟨markUpdate_inRange s.record s.phaseValue hrec hpv0 hpv1, hpv0, hpv1, hph⟩
  | advance =>
      simp only [applyScanEvent]
      by_cases htp : s.timerPending = true
      · simp only [htp, if_true]
        exact runScanPhaseFuel_inv 3 _ ⟨hrec, hpv0, hpv1, hph⟩
      · simp only [htp, if_false]
        exact ⟨hrec, hpv0, hpv1, hph⟩
  | abort =>
      simp only [applyScanEvent, stopExploreScan]
      by_cases hsc : s.scanning = true
      · simp only [hsc, if_true]
        exact ⟨hrec, hpv0, hpv1, fun p hp => nomatch hp⟩
      · simp only [hsc, if_false]
        exact ⟨hrec, hpv0, hpv1, hph⟩
  | setSlider v =>
      simp only [applyScanEvent]
      by_cases hsc : s.scanning = true
      · simp only [hsc, if_true]
        exact ⟨hrec, hpv0, hpv1, hph⟩
      · simp only [hsc, if_false]
        exact ⟨hrec, he.1, he.2, hph⟩

/-- A whole event trace preserves the range invariant. -/
theorem runScan_inv : ∀ (es : List ScanEvent) (s : ScanState),
    ScanInv s → (∀ e ∈ es, eventSliderOk e) → ScanInv (runScan s es) := by
  intro es
  induction es with
  | nil => intro s h _; exact h
  | cons e rest ih =>
      intro s h hok
      have h1 : ScanInv (applyScanEvent s e) :=
        applyScanEvent_inv s e h (hok e (List.mem_cons_self e rest))
      exact ih _ h1 (fun x hx => hok x (List.mem_cons_of_mem e hx))

/-! ## Claims -/

/-- C3: in every Spatial Echo or Ambient Echo build, for every
session-randomized draw, the split fraction lies in `[0.35, 0.65]` and
every created detune pair `(leftOffset, rightOffset)` sums exactly to
the band frequency (exact equality in `ℚ`, hence within `1e-6`). -/
theorem c3_echo_offsets_sum_to_band (mode : StimMode) (freqHz rand : ℚ)
    (h0 : 0 ≤ rand) (h1 : rand ≤ 1) :
    (35/100 : ℚ) ≤ echoSplitFrac rand ∧ echoSplitFrac rand ≤ 65/100 ∧
      ∀ pr ∈ modeDetunePairs mode freqHz rand, pr.1 + pr.2 = freqHz := by
  refine ⟨?_, ?_, ?_⟩
  · unfold echoSplitFrac; nlinarith
  · unfold echoSplitFrac; nlinarith
  · intro pr hpr
    cases mode with
    | spatial =>
        simp only [modeDetunePairs, List.mem_singleton] at hpr
        subst hpr
        unfold echoLeftDiff echoRightDiff
        ring
    | am => simp [modeDetunePairs] at hpr
    | binaural => simp [modeDetunePairs] at hpr
    | ambient => simp [modeDetunePairs] at hpr

/-- Witness for C3 at the Spatial Echo mode, band 7.83 Hz and the
median random draw. -/
theorem c3_echo_offsets_sum_to_band_witness :
    (0 : ℚ) ≤ 1/2 ∧ (1/2 : ℚ) ≤ 1 ∧
      ((35/100 : ℚ) ≤ echoSplitFrac (1/2) ∧ echoSplitFrac (1/2) ≤ 65/100 ∧
        ∀ pr ∈ modeDetunePairs .spatial (783/100) (1/2), pr.1 + pr.2 = 783/100) :=
  ⟨by norm_num, by norm_num,
    c3_echo_offsets_sum_to_band .spatial (783/100) (1/2) (by norm_num) (by norm_num)⟩

/-- C6: every mark event updates the per-band record by incremental
mean (`handleMarkStrongest`), a first mark stores the marked phase with
count 1, and marking `[10, 20, 30]` from an empty record yields phase
20 with count 3. -/
theorem c6_mark_incremental_mean :
    (∀ s : ScanState,
        (handleMarkStrongest s).record = some (markUpdate s.record s.phaseValue)) ∧
      (∀ m : ℚ, markUpdate none m = { phase := m, count := 1 }) ∧
      (∀ (r : PhaseRecord) (m : ℚ),
        markUpdate (some r) m =
          { phase := r.phase + (m - r.phase) / ((r.count : ℚ) + 1), count := r.count + 1 }) ∧
      markFold none [10, 20, 30] = some { phase := 20, count := 3 } := by
  refine ⟨?_, ?_, ?_, ?_⟩
  · intro s
    by_cases h : s.scanning = true <;> simp [handleMarkStrongest, h]
  · intro m; rfl
  · intro r m
    simp [markUpdate]
  · norm_num [markFold, markUpdate]

/-- C7 counterexample: at band 7.83 Hz the binaural left oscillator
plays `mapBandToAudible(7.83) + 7.83/2 = 227.405` Hz, not the 233.915
Hz stated by the claim; the 230 Hz carrier value does not enter the
binaural frequencies, which are derived from the fixed linear band
mapping `200 + 3·band`. -/
theorem c7_binaural_scenario_false :
    binauralLeftFreq (783/100) = 227405/1000 ∧
      binauralRightFreq (783/100) = 219575/1000 ∧
      ¬ binauralLeftFreq (783/100) = 233915/1000 := by
  norm_num [binauralLeftFreq, binauralRightFreq, mapBandToAudible]

/-- C7 amended: in Binaural mode the carrier is silenced and the two
oscillators play at `audible(band) ± band/2` with
`audible(band) = 200 + 3·band` (the carrier slider does not affect
them), panned hard left/right, so the left/right difference equals the
band exactly for every band; at band 7.83 Hz this gives 227.405 Hz and
219.575 Hz. -/
theorem c7_binaural_beat_equals_band (freqHz : ℚ) :
    binauralCarrierGain = 0 ∧
      binauralLeftFreq freqHz = (200 + freqHz * 3) + freqHz / 2 ∧
      binauralRightFreq freqHz = (200 + freqHz * 3) - freqHz / 2 ∧
      binauralLeftFreq freqHz - binauralRightFreq freqHz = freqHz ∧
      binauralPans = (-1, 1) := by
  unfold binauralCarrierGain binauralLeftFreq binauralRightFreq mapBandToAudible binauralPans
  refine ⟨rfl, rfl, rfl, by ring, rfl⟩

/-- C8: for every reverb space and every buffer, with `r` the
root-mean-square of the buffer (characterized by `0 ≤ r` and
`r * r = meanSquare`), the compensated wet gain computed by the code
equals the spec formula
`clamp(baseWet(space) * clamp(0.12/rms, 0.05, 1.5), 0.03, 0.95)` with
`baseWet(Temple) = 0.42`, `baseWet(Forest) = 0.58` and compensation
skipped at rms 0; in particular Temple at rms 0.12 yields 0.42. -/
theorem c8_wet_gain_compensation (space : ReverbSpace) (buffer : List (List ℚ)) (r : ℚ)
    (hr0 : 0 ≤ r) (_hr : r * r = getAudioBufferMeanSquare buffer) :
    getCompensatedIrWetGain (reverbSpaceName space) r = wetGainSpec space r ∧
      getCompensatedIrWetGain "temple" (12/100) = 42/100 := by
  constructor
  · rcases eq_or_lt_of_le hr0 with h0 | hpos
    · cases space <;>
        simp [getCompensatedIrWetGain, wetGainSpec, reverbSpaceName, baseWetSpec, ← h0]
    · have hle : ¬ r ≤ 0 := not_le.mpr hpos
      have hne : ¬ r = 0 := ne_of_gt hpos
      cases space <;>
        simp [getCompensatedIrWetGain, wetGainSpec, reverbSpaceName, baseWetSpec,
          clampQ, hle, hne]
  · norm_num [getCompensatedIrWetGain]

/-- Witness for C8: the Temple space with a one-channel buffer of
constant sample value 0.12, whose root-mean-square is exactly 0.12. -/
theorem c8_wet_gain_compensation_witness :
    ((0 : ℚ) ≤ 12/100 ∧
        (12/100 : ℚ) * (12/100) = getAudioBufferMeanSquare [[12/100]]) ∧
      (getCompensatedIrWetGain (reverbSpaceName .temple) (12/100) =
          wetGainSpec .temple (12/100) ∧
        getCompensatedIrWetGain "temple" (12/100) = 42/100) :=
  ⟨⟨by norm_num, by norm_num [getAudioBufferMeanSquare, sumSquares]⟩,
    c8_wet_gain_compensation .temple [[12/100]] (12/100) (by norm_num)
      (by norm_num [getAudioBufferMeanSquare, sumSquares])⟩

/-- C1 amended: when Tier 2 completes, `runScanPhase` stores the
elicited best candidate as the new phase, OVERWRITING the previous
phase while keeping the previous mark count (count 1 when no record
existed); it clears the transient counters and sets the live phase
parameter to the elicited value rounded to whole degrees. -/
theorem c1_completion_overwrites_record (s : ScanState)
    (hscan : s.scanning = true) (htier : s.scanTier = 2)
    (hne : s.scanPhases ≠ []) (hidx : s.scanPhases.length ≤ s.scanIndex) :
    (runScanPhaseFuel 3 s).record =
        some { phase := scanBestPhase s.scanPhases s.scanCounts,
               count := match s.record with | none => 1 | some r => r.count } ∧
      (runScanPhaseFuel 3 s).phaseValue =
        jsToFixed0 (scanBestPhase s.scanPhases s.scanCounts) ∧
      (runScanPhaseFuel 3 s).scanning = false ∧
      (runScanPhaseFuel 3 s).scanCounts = [] ∧
      (runScanPhaseFuel 3 s).scanPhases = [] ∧
      (runScanPhaseFuel 3 s).scanIndex = 0 ∧
      (runScanPhaseFuel 3 s).countdownActive = false := by
  have hc : ¬ (s.scanIndex = 0 ∧ s.scanPhases = []) := fun h => hne h.2
  have ht1 : ¬ s.scanTier = 1 := by rw [htier]; omega
  simp [runScanPhaseFuel, hscan, hc, hidx, ht1]

/-- Witness for C1 at the concrete end-of-Tier-2 state. -/
theorem c1_completion_overwrites_record_witness :
    (c1ScanState.scanning = true ∧ c1ScanState.scanTier = 2 ∧
        c1ScanState.scanPhases ≠ [] ∧
        c1ScanState.scanPhases.length ≤ c1ScanState.scanIndex) ∧
      ((runScanPhaseFuel 3 c1ScanState).record =
          some { phase := scanBestPhase c1ScanState.scanPhases c1ScanState.scanCounts,
                 count := match c1ScanState.record with | none => 1 | some r => r.count } ∧
        (runScanPhaseFuel 3 c1ScanState).phaseValue =
          jsToFixed0 (scanBestPhase c1ScanState.scanPhases c1ScanState.scanCounts) ∧
        (runScanPhaseFuel 3 c1ScanState).scanning = false ∧
        (runScanPhaseFuel 3 c1ScanState).scanCounts = [] ∧
        (runScanPhaseFuel 3 c1ScanState).scanPhases = [] ∧
        (runScanPhaseFuel 3 c1ScanState).scanIndex = 0 ∧
        (runScanPhaseFuel 3 c1ScanState).countdownActive = false) :=
  ⟨⟨rfl, rfl, by decide, by decide⟩,
    c1_completion_overwrites_record c1ScanState rfl rfl (by decide) (by decide)⟩

/-- C1 counterexample: a full guided scan from the pre-existing record
`{phase: 50, count: 1}` with no marks ends with the stored record
`{phase: 0, count: 1}` (the elicited Tier-2 best is 0), while the
incremental-mean merge stated by the claim would store
`50 + (0 - 50)/(1 + 1) = 25` with the prior phase contributing with
weight `1/2`; the stored phase is the elicited value with the prior
phase contributing nothing. -/
theorem c1_scan_completion_not_merged :
    (runScan (initScanState (some { phase := 50, count := 1 }) 50)
        ([.start] ++ List.replicate 14 .advance)).record =
        some { phase := 0, count := 1 } ∧
      ¬ ((0 : ℚ) = 50 + (0 - 50) / ((1 : ℚ) + 1)) := by
  constructor
  · norm_num [runScan, initScanState, applyScanEvent, startTwoTierScan, runScanPhaseFuel,
      tier1Phases, computeTier2Phases, scanResults, scanBestPhase, sortBy, insBy, countLE,
      jsMod360, jsToFixed0, List.replicate, List.enum, List.enumFrom]
  · norm_num

/-- C2 amended: aborting a running scan (`stopExplore`) cancels the
pending phase-advance timer and the countdown, discards all transient
scan data, and the abort operation itself leaves the persisted record
of the active band untouched.  (Marks issued earlier during the scan
have already been merged into that record at mark time, so after an
abort the record equals the pre-scan value only when no mid-scan marks
occurred.) -/
theorem c2_abort_cancels_and_preserves (s : ScanState) (h : s.scanning = true) :
    (stopExploreScan s).record = s.record ∧
      (stopExploreScan s).timerPending = false ∧
      (stopExploreScan s).countdownActive = false ∧
      (stopExploreScan s).scanning = false ∧
      (stopExploreScan s).scanTier = 0 ∧
      (stopExploreScan s).scanPhases = [] ∧
      (stopExploreScan s).scanCounts = [] ∧
      (stopExploreScan s).scanIndex = 0 := by
  simp [stopExploreScan, h]

/-- Witness for C2 at a concrete mid-Tier-2 state. -/
theorem c2_abort_cancels_and_preserves_witness :
    c2ScanState.scanning = true ∧
      ((stopExploreScan c2ScanState).record = c2ScanState.record ∧
        (stopExploreScan c2ScanState).timerPending = false ∧
        (stopExploreScan c2ScanState).countdownActive = false ∧
        (stopExploreScan c2ScanState).scanning = false ∧
        (stopExploreScan c2ScanState).scanTier = 0 ∧
        (stopExploreScan c2ScanState).scanPhases = [] ∧
        (stopExploreScan c2ScanState).scanCounts = [] ∧
        (stopExploreScan c2ScanState).scanIndex = 0) :=
  ⟨rfl, c2_abort_cancels_and_preserves c2ScanState rfl⟩

set_option maxHeartbeats 1000000 in
/-- C2 counterexample: a scan started from the record
`{phase: 50, count: 1}` with one mark at Tier-2 candidate index 3 and
then an abort ends with the persisted record `{phase: 25, count: 2}` —
not the pre-scan value: the mark already merged into the record before
the abort, and the abort does not roll it back. -/
theorem c2_abort_record_differs_from_prescan :
    runScan (initScanState (some { phase := 50, count := 1 }) 50)
        ([.start] ++ List.replicate 10 .advance ++ [.mark, .abort]) =
      { scanning := false, scanTier := 0, scanIndex := 0, scanCounts := [],
        scanPhases := [], timerPending := false, countdownActive := false,
        record := some { phase := 25, count := 2 }, phaseValue := 0 } ∧
      ({ phase := 25, count := 2 } : PhaseRecord) ≠ { phase := 50, count := 1 } := by
  constructor
  · norm_num [runScan, initScanState, applyScanEvent, startTwoTierScan, handleMarkStrongest,
      stopExploreScan, markUpdate, bumpCount, runScanPhaseFuel, tier1Phases,
      computeTier2Phases, scanResults, scanBestPhase, sortBy, insBy, countLE,
      jsMod360, jsToFixed0, List.replicate, List.enum, List.enumFrom]
  · norm_num

set_option maxHeartbeats 1000000 in
/-- C5: the Tier1 to Tier2 transition clears `scanPhases` and
`scanCounts` BEFORE the recursive `runScanPhase()` call that is
supposed to read them, so the Tier-2 candidate computation always runs
on empty arrays and yields seven candidates all equal to 0 (defaults
`p1 = 0`, `p2 = 360`, `span = (360 - 0 + 360) % 360 = 0`), for every
count list.  In the concrete run below Tier 1 receives one mark at 60
degrees and two marks at 180 degrees, yet Tier 2 presents
`[0, 0, 0, 0, 0, 0, 0]` instead of seven points spread between the two
top-marked phases such as `[60, 80, 100, 120, 140, 160, 180]`. -/
theorem c5_tier2_candidates_ignore_tier1_marks :
    (∀ counts : List ℕ, computeTier2Phases [] counts = List.replicate 7 0) ∧
      runScan (initScanState none 0)
          ([.start, .advance, .mark, .advance, .advance, .mark, .mark] ++
            List.replicate 4 .advance) =
        { scanning := true, scanTier := 2, scanIndex := 0, scanCounts := [],
          scanPhases := List.replicate 7 0, timerPending := true, countdownActive := true,
          record := some { phase := 140, count := 3 }, phaseValue := 0 } ∧
      List.replicate 7 (0 : ℚ) ≠ [60, 80, 100, 120, 140, 160, 180] := by
  refine ⟨computeTier2Phases_nil, ?_, ?_⟩
  · norm_num [runScan, initScanState, applyScanEvent, startTwoTierScan, handleMarkStrongest,
      markUpdate, bumpCount, runScanPhaseFuel, tier1Phases, computeTier2Phases, scanResults,
      scanBestPhase, sortBy, insBy, countLE, jsMod360, jsToFixed0, List.replicate,
      List.enum, List.enumFrom]
  · norm_num [List.replicate]

/-- C4: teardown (`stopCurrentAudio`) is idempotent — a second
consecutive invocation is a no-op and never errors (every stop is
null-checked and failure-swallowed) — and it clears every pending
timer; but it is NOT complete: after tearing down a build that started
the decoded birds sample source, that source is still running (id 7
stays in the running ledger and `birdsSource` is never stopped or
cleared), and after tearing down a build with streamed birds/waves
elements both media elements are still running, so the graph does not
reach zero live nodes. -/
theorem c4_teardown_idempotent_but_sources_leak :
    (∀ s : AudioNodes, stopCurrentAudio (stopCurrentAudio s) = stopCurrentAudio s) ∧
      (stopCurrentAudio (startGraph c4CfgSample emptyAudio)).running = [7] ∧
      (startGraph c4CfgSample emptyAudio).birdsSource = some 7 ∧
      (stopCurrentAudio (startGraph c4CfgSample emptyAudio)).birdsSource = some 7 ∧
      (stopCurrentAudio (startGraph c4CfgSample emptyAudio)).birdsPatternTimer = false ∧
      (stopCurrentAudio (startGraph c4CfgSample emptyAudio)).wavesPatternTimer = false ∧
      (stopCurrentAudio (startGraph c4CfgSample emptyAudio)).chordTimer = false ∧
      (stopCurrentAudio (startGraph c4CfgSample emptyAudio)).scopeAnimId = false ∧
      (stopCurrentAudio (startGraph c4CfgStream emptyAudio)).running = [6, 7] ∧
      (stopCurrentAudio (startGraph c4CfgStream emptyAudio)).birdsStreamEl = some 7 ∧
      (stopCurrentAudio (startGraph c4CfgStream emptyAudio)).wavesStreamEl = some 6 := by
  refine ⟨fun s => rfl, ?_, ?_, ?_, ?_, ?_, ?_, ?_, ?_, ?_, ?_⟩ <;> decide

/-- C9 counterexample: Tier 1 deliberately presents 360 degrees as its
last candidate; marking there on an empty record stores the record
`{phase: 360, count: 1}`, and 360 is not inside the half-open interval
`[0, 360)` demanded by the claim. -/
theorem c9_mark_at_360_stored :
    (runScan (initScanState none 0)
        ([.start] ++ List.replicate 6 .advance ++ [.mark])).record =
        some { phase := 360, count := 1 } ∧
      ¬ ((360 : ℚ) < 360) := by
  constructor
  · norm_num [runScan, initScanState, applyScanEvent, startTwoTierScan, handleMarkStrongest,
      markUpdate, bumpCount, runScanPhaseFuel, tier1Phases, computeTier2Phases, scanResults,
      scanBestPhase, sortBy, insBy, countLE, jsMod360, jsToFixed0, List.replicate,
      List.enum, List.enumFrom]
  · norm_num

/-- C9 amended: for every event trace (guided scans, marks, timer
advances, aborts, and manual slider moves within the slider range
`[0, 360]`), the persisted per-band record satisfies
`0 ≤ phaseDegrees ≤ 360` and `markCount ≥ 0` — the closed upper bound
360 is attained, by marking at the Tier-1 candidate 360. -/
theorem c9_record_stays_in_closed_range (events : List ScanEvent)
    (h : ∀ e ∈ events, eventSliderOk e) :
    recordInRange (runScan (initScanState none 0) events).record := by
  have hinit : ScanInv (initScanState none 0) := by
    refine ⟨trivial, le_refl 0, by norm_num [initScanState], fun p hp => nomatch hp⟩
  exact (runScan_inv events (initScanState none 0) hinit h).1

/-- Witness for C9 on a trace with a manual slider move to 90 degrees
followed by a mark. -/
theorem c9_record_stays_in_closed_range_witness :
    (∀ e ∈ [ScanEvent.setSlider 90, ScanEvent.mark], eventSliderOk e) ∧
      recordInRange
        (runScan (initScanState none 0) [ScanEvent.setSlider 90, ScanEvent.mark]).record := by
  have h : ∀ e ∈ [ScanEvent.setSlider 90, ScanEvent.mark], eventSliderOk e := by
    intro e he
    simp only [List.mem_cons, List.not_mem_nil, or_false] at he
    rcases he with rfl | rfl <;> norm_num [eventSliderOk]
  exact ⟨h, c9_record_stays_in_closed_range [ScanEvent.setSlider 90, ScanEvent.mark] h⟩

/-- C10: two catalog entries that are equal in every scoring component
except that one matches exactly one favorite keyword (+45) while the
other matches only one meditation keyword (+14) differ by 31 points in
favor of the favorite match, and in the score-descending stable sort of
any catalog the favorite-matching entry always appears strictly before
the meditation-matching one. -/
theorem c10_favorite_outranks_meditation (prefs : Option ChordPrefs) (a b : ChordLoop)
    (hbpm : bpmScorePart prefs a = bpmScorePart prefs b)
    (hpos : basePosScorePart a = basePosScorePart b)
    (hneg : baseNegScorePart a = baseNegScorePart b)
    (havoid : avoidScorePart prefs a = avoidScorePart prefs b)
    (hfa : favScorePart prefs a = 45) (hma : medScorePart prefs a = 0)
    (hfb : favScorePart prefs b = 0) (hmb : medScorePart prefs b = 14) :
    scoreChordLoop prefs a = scoreChordLoop prefs b + 31 ∧
      ∀ (loops : List ChordLoop) (i j : ℕ)
        (hi : i < (sortChordLoops prefs loops).length)
        (hj : j < (sortChordLoops prefs loops).length),
        ((sortChordLoops prefs loops).get ⟨i, hi⟩).1 = a →
        ((sortChordLoops prefs loops).get ⟨j, hj⟩).1 = b → i < j := by
  have hscore : scoreChordLoop prefs a = scoreChordLoop prefs b + 31 := by
    unfold scoreChordLoop
    rw [hbpm, hpos, hneg, havoid, hfa, hma, hfb, hmb]
    ring
  refine ⟨hscore, ?_⟩
  intro loops i j hi hj hia hjb
  have hsorted : (sortChordLoops prefs loops).Pairwise (fun x y => y.2 ≤ x.2) := by
    apply pairwise_sortBy
    · intro x y hxy
      unfold loopCmpLE at hxy
      by_cases he : x.2 = y.2
      · rw [he]
      · simp only [he, if_false] at hxy
        exact le_of_lt (of_decide_eq_true hxy)
    · intro x y hxy
      unfold loopCmpLE at hxy
      by_cases he : x.2 = y.2
      · rw [he]
      · simp only [he, if_false] at hxy
        have := of_decide_eq_false hxy
        omega
    · intro x y z h1 h2
      exact le_trans h2 h1
  have hsnd : ∀ x ∈ sortChordLoops prefs loops, x.2 = scoreChordLoop prefs x.1 := by
    intro x hx
    have hx2 : x ∈ loops.map (fun l => (l, scoreChordLoop prefs l)) :=
      (mem_sortBy _ _ _).mp hx
    rcases List.mem_map.mp hx2 with ⟨l, _hl, rfl⟩
    rfl
  rcases lt_trichotomy i j with h | h | h
  · exact h
  · exfalso
    have heq : a = b := by
      subst h
      rw [← hia, ← hjb]
    have : scoreChordLoop prefs b + 31 = scoreChordLoop prefs b := by
      rw [← hscore, heq]
    omega
  · exfalso
    have hp := (List.pairwise_iff_get.mp hsorted) ⟨j, hj⟩ ⟨i, hi⟩ h
    have hai : ((sortChordLoops prefs loops).get ⟨i, hi⟩).2 = scoreChordLoop prefs a := by
      rw [hsnd _ (List.get_mem _ _ _), hia]
    have hbj : ((sortChordLoops prefs loops).get ⟨j, hj⟩).2 = scoreChordLoop prefs b := by
      rw [hsnd _ (List.get_mem _ _ _), hjb]
    rw [hai, hbj] at hp
    omega

/-- Witness for C10: with favorite keyword `ocean` and meditation
keyword `zen`, the entry `ocean calm` (+45) sorts strictly before
`zen calm` (+14) even when listed after it. -/
theorem c10_favorite_outranks_meditation_witness :
    (bpmScorePart c10Prefs c10LoopA = bpmScorePart c10Prefs c10LoopB ∧
        basePosScorePart c10LoopA = basePosScorePart c10LoopB ∧
        baseNegScorePart c10LoopA = baseNegScorePart c10LoopB ∧
        avoidScorePart c10Prefs c10LoopA = avoidScorePart c10Prefs c10LoopB ∧
        favScorePart c10Prefs c10LoopA = 45 ∧ medScorePart c10Prefs c10LoopA = 0 ∧
        favScorePart c10Prefs c10LoopB = 0 ∧ medScorePart c10Prefs c10LoopB = 14) ∧
      (0 : ℕ) < 1 := by
  have h1 : bpmScorePart c10Prefs c10LoopA = bpmScorePart c10Prefs c10LoopB := by decide
  have h2 : basePosScorePart c10LoopA = basePosScorePart c10LoopB := by decide
  have h3 : baseNegScorePart c10LoopA = baseNegScorePart c10LoopB := by decide
  have h4 : avoidScorePart c10Prefs c10LoopA = avoidScorePart c10Prefs c10LoopB := by decide
  have h5 : favScorePart c10Prefs c10LoopA = 45 := by decide
  have h6 : medScorePart c10Prefs c10LoopA = 0 := by decide
  have h7 : favScorePart c10Prefs c10LoopB = 0 := by decide
  have h8 : medScorePart c10Prefs c10LoopB = 14 := by decide
  refine ⟨⟨h1, h2, h3, h4, h5, h6, h7, h8⟩, ?_⟩
  exact (c10_favorite_outranks_meditation c10Prefs c10LoopA c10LoopB
      h1 h2 h3 h4 h5 h6 h7 h8).2
    [c10LoopB, c10LoopA] 0 1 (by decide) (by decide) (by decide) (by decide)

end SchumannLab
